import Mathlib

/-!
Verification of the goKeyValueStore repository: an in-process key-value store
with per-entry TTL expiration and an optional write-through persistence layer.

The embedding covers both implementations present in the sources:
- the persistence-enabled store (package file with cacheFolder, saveInCache,
  deleteInCache, init and clean), embedded in namespace KVS;
- the in-memory-only store (keyValueStore.go), embedded in namespace MemKVS.

Modelling conventions:
- Machine integers (Go int and int64 on a 64-bit platform) are Int with
  explicit wraparound mod 2^64 where products can overflow.  Go's
  time.Duration(ttl) * time.Millisecond is a 64-bit signed multiplication,
  embedded as wrap64 (ttl * 1000000) nanoseconds.
- The current instant is an explicit parameter nowNs, in nanoseconds since
  the Unix epoch; time.Now().UnixMilli() is unixMilli nowNs, floor division
  by 10^6 (Go computes unixSec * 1000 + nsec / 10^6 with 0 ≤ nsec < 10^9,
  which equals the floor of nanoseconds / 10^6).
- Go maps are association lists; insertion replaces the binding for the key.
  Go map iteration order is unspecified, list order stands in for it; no
  theorem below depends on a particular order.
- The file system is a list of (name, parsed JSON content) pairs together
  with two failure oracles saying which write and which remove calls fail.
- encoding/json is modelled structurally: json.Marshal maps a dynamic Go
  value to a JSON tree (jEncode) and json.Unmarshal into an interface value
  maps a JSON tree back to a dynamic Go value (decodeAny).  As in Go, every
  JSON number decoded into an interface value becomes a float64 (constructor
  gFloat), so type identity of numeric payloads is not preserved.  JSON
  numbers are restricted to integral values and map key ordering is kept as
  written; no claim below depends on either restriction.
- The SHA-256 digest used only to build file names is abstracted to an
  injective hex encoding of the key bytes; no claim depends on the digest
  function itself, only on the file name being a deterministic function of
  the key.
-/

/-- JSON trees, the parsed content of a mirror file. -/
inductive JValue where
  | jNull : JValue
  | jBool (b : Bool) : JValue
  | jNum (n : Int) : JValue
  | jStr (s : String) : JValue
  | jArr (xs : List JValue) : JValue
  | jObj (fields : List (String × JValue)) : JValue

/-- Dynamic Go values (the interface-typed payload stored in a node).
gInt is a Go int, gFloat a float64 holding an integral value; they marshal
to the same JSON number but are different Go values. -/
inductive GoVal where
  | gNil : GoVal
  | gBool (b : Bool) : GoVal
  | gInt (n : Int) : GoVal
  | gFloat (n : Int) : GoVal
  | gStr (s : String) : GoVal
  | gSlice (xs : List GoVal) : GoVal
  | gMap (fields : List (String × GoVal)) : GoVal

mutual

/-- json.Marshal on a dynamic Go value. -/
def jEncode : GoVal → JValue
  | .gNil => .jNull
  | .gBool b => .jBool b
  | .gInt n => .jNum n
  | .gFloat n => .jNum n
  | .gStr s => .jStr s
  | .gSlice xs => .jArr (jEncodeList xs)
  | .gMap fields => .jObj (jEncodeFields fields)

def jEncodeList : List GoVal → List JValue
  | [] => []
  | x :: xs => jEncode x :: jEncodeList xs

def jEncodeFields : List (String × GoVal) → List (String × JValue)
  | [] => []
  | (s, x) :: rest => (s, jEncode x) :: jEncodeFields rest

end

mutual

/-- json.Unmarshal of a JSON tree into a Go interface value: objects become
string-keyed maps, arrays become slices, and every number becomes a float64. -/
def decodeAny : JValue → GoVal
  | .jNull => .gNil
  | .jBool b => .gBool b
  | .jNum n => .gFloat n
  | .jStr s => .gStr s
  | .jArr xs => .gSlice (decodeAnyList xs)
  | .jObj fields => .gMap (decodeAnyFields fields)

def decodeAnyList : List JValue → List GoVal
  | [] => []
  | x :: xs => decodeAny x :: decodeAnyList xs

def decodeAnyFields : List (String × JValue) → List (String × GoVal)
  | [] => []
  | (s, x) :: rest => (s, decodeAny x) :: decodeAnyFields rest

end

/-- Lookup in an association list (the embedding of Go map indexing). -/
def alookup {α : Type} : List (String × α) → String → Option α
  | [], _ => none
  | (k, v) :: rest, key => if k = key then some v else alookup rest key

/-- Remove every binding of a key (the embedding of Go map delete). -/
def aerase {α : Type} (l : List (String × α)) (key : String) : List (String × α) :=
  l.filter (fun p => p.1 ≠ key)

/-- Insert or replace a binding (the embedding of Go map assignment). -/
def ainsert {α : Type} (l : List (String × α)) (key : String) (v : α) : List (String × α) :=
  (key, v) :: aerase l key

/-- time.Time.UnixMilli of an instant given in nanoseconds: floor division. -/
def unixMilli (ns : Int) : Int := ns / 1000000

/-- 64-bit signed wraparound, the behaviour of Go int64 multiplication. -/
def wrap64 (x : Int) : Int := (x + 2 ^ 63) % 2 ^ 64 - 2 ^ 63

/-- math.MaxInt on a 64-bit platform. -/
def goMaxInt : Int := 2 ^ 63 - 1

namespace KVS

/-- The persisted and in-memory entry record (persistence-enabled source):
type node struct with json tags key, value, deleteTimestamp. -/
structure node where
  Key : String
  Value : GoVal
  DeleteTimestamp : Int

/-- Errors returned by the persistence layer operations. -/
inductive Err where
  | writeErr : Err
  | removeErr : Err
  | decodeErr : Err
deriving DecidableEq

/-- The file system seen by the store: existing files with parsed content,
plus oracles deciding which os.WriteFile and which os.Remove calls fail
(an os.Remove on an absent file reports not-exist, handled separately). -/
structure FS where
  files : List (String × JValue)
  writeFails : String → Bool
  removeFails : String → Bool

/-- Whether a file of this name exists. -/
def hasFile (fs : FS) (name : String) : Bool := (alookup fs.files name).isSome

/-- The store: the data map and the configured cache folder
(empty string means persistence disabled). -/
structure KeyValueStore where
  data : List (String × node)
  cacheFolder : String

/-- Hex digit character. -/
def hexDigit (n : Nat) : Char := if n < 10 then Char.ofNat (48 + n) else Char.ofNat (87 + n)

/-- Fixed-width hex form of one character code. -/
def charHex (c : Char) : String :=
  let n := c.toNat
  String.mk [hexDigit (n / 1048576 % 16), hexDigit (n / 65536 % 16), hexDigit (n / 4096 % 16),
    hexDigit (n / 256 % 16), hexDigit (n / 16 % 16), hexDigit (n % 16)]

/-- Stand-in for the hex-encoded SHA-256 digest of the key: an injective,
deterministic hex encoding of the key characters (see the header note). -/
def sha256hex (key : String) : String := String.join (key.data.map charHex)

/-- getFileName: filepath.Join(cacheFolder, hex-digest + ".store.json"). -/
def getFileName (cacheFolder key : String) : String :=
  cacheFolder ++ "/" ++ sha256hex key ++ ".store.json"

/-- newNode: a TTL of zero is replaced by math.MaxInt milliseconds; the
deadline is now plus the 64-bit product ttl * time.Millisecond nanoseconds,
taken at millisecond precision. -/
def newNode (key : String) (value : GoVal) (ttl : Int) (nowNs : Int) : node :=
  let t := if ttl = 0 then goMaxInt else ttl
  { Key := key, Value := value, DeleteTimestamp := unixMilli (nowNs + wrap64 (t * 1000000)) }

/-- nodeIsExpired: strictly past the deadline at millisecond precision. -/
def nodeIsExpired (n : node) (nowNs : Int) : Bool :=
  unixMilli nowNs > n.DeleteTimestamp

/-- json.Marshal of a node: the three tagged fields in declaration order. -/
def encodeNode (n : node) : JValue :=
  .jObj [("key", .jStr n.Key), ("value", jEncode n.Value), ("deleteTimestamp", .jNum n.DeleteTimestamp)]

/-- json.Unmarshal of a mirror file into a node value: a missing field keeps
the zero value, a field of the wrong JSON type is an unmarshal error, and
the interface-typed value field goes through decodeAny. -/
def decodeNode : JValue → Option node
  | .jObj fields =>
    let keyField : Option String :=
      match alookup fields "key" with
      | none => some ""
      | some (.jStr s) => some s
      | some _ => none
    let valueField : GoVal :=
      match alookup fields "value" with
      | none => .gNil
      | some j => decodeAny j
    let tsField : Option Int :=
      match alookup fields "deleteTimestamp" with
      | none => some 0
      | some (.jNum n) => some n
      | some _ => none
    match keyField, tsField with
    | some k, some t => some { Key := k, Value := valueField, DeleteTimestamp := t }
    | _, _ => none
  | _ => none

/-- saveInCache: a no-op without a cache folder; otherwise marshal the node
(total on these values) and write its mirror file, reporting write failure. -/
def saveInCache (cacheFolder : String) (fs : FS) (n : node) : FS × Option Err :=
  if cacheFolder = "" then (fs, none)
  else
    let f := getFileName cacheFolder n.Key
    if fs.writeFails f then (fs, some .writeErr)
    else ({ fs with files := ainsert fs.files f (encodeNode n) }, none)

/-- deleteInCache: a no-op without a cache folder; os.Remove on an absent
file is not-exist, which is treated as success. -/
def deleteInCache (cacheFolder : String) (fs : FS) (key : String) : FS × Option Err :=
  if cacheFolder = "" then (fs, none)
  else
    let f := getFileName cacheFolder key
    if hasFile fs f then
      if fs.removeFails f then (fs, some .removeErr)
      else ({ fs with files := aerase fs.files f }, none)
    else (fs, none)

/-- Set: build the node, write it to the map unconditionally, then attempt
the mirror write and return its error. -/
def Set (st : KeyValueStore) (fs : FS) (key : String) (value : GoVal) (ttl : Int)
    (nowNs : Int) : KeyValueStore × FS × Option Err :=
  let n := newNode key value ttl nowNs
  let st' := { st with data := ainsert st.data key n }
  let r := saveInCache st.cacheFolder fs n
  (st', r.1, r.2)

/-- Get: a hit only when the key is present and not expired; the store is
returned unchanged (the source mutates nothing on the read path). -/
def Get (st : KeyValueStore) (key : String) (nowNs : Int) : Option GoVal × KeyValueStore :=
  match alookup st.data key with
  | none => (none, st)
  | some n => if nodeIsExpired n nowNs then (none, st) else (some n.Value, st)

/-- Delete: remove the key from the map unconditionally, then remove the
mirror file. -/
def Delete (st : KeyValueStore) (fs : FS) (key : String) : KeyValueStore × FS × Option Err :=
  let st' := { st with data := aerase st.data key }
  let r := deleteInCache st.cacheFolder fs key
  (st', r.1, r.2)

/-- Length: scan all entries and count the ones not expired now. -/
def Length (st : KeyValueStore) (nowNs : Int) : Nat :=
  st.data.foldl (fun counter p => if nodeIsExpired p.2 nowNs then counter else counter + 1) 0

/-- Result of one background sweep pass: either the pass completed, or it
panicked while removing a mirror file (the source calls panic on that
error), carrying the state reached when the panic fired. -/
inductive SweepResult where
  | ok (data : List (String × node)) (fs : FS) : SweepResult
  | crash (data : List (String × node)) (fs : FS) (e : Err) : SweepResult

def SweepResult.isCrash : SweepResult → Bool
  | .ok _ _ => false
  | .crash _ _ _ => true

def SweepResult.dataOf : SweepResult → List (String × node)
  | .ok d _ => d
  | .crash d _ _ => d

/-- The body of one sweep pass: iterate over a snapshot of the entries;
each expired entry is deleted from the map and its mirror removed; a mirror
removal error panics, ending the pass (and the process). -/
def cleanLoop (cacheFolder : String) :
    List (String × node) → List (String × node) → FS → Int → SweepResult
  | [], data, fs, _ => .ok data fs
  | (k, n) :: rest, data, fs, nowNs =>
    if nodeIsExpired n nowNs then
      let data' := aerase data k
      match deleteInCache cacheFolder fs k with
      | (fs', some e) => .crash data' fs' e
      | (fs', none) => cleanLoop cacheFolder rest data' fs' nowNs
    else cleanLoop cacheFolder rest data fs nowNs

/-- One pass of the clean goroutine at a given instant. -/
def clean (st : KeyValueStore) (fs : FS) (nowNs : Int) : SweepResult :=
  cleanLoop st.cacheFolder st.data st.data fs nowNs

/-- The TTL recomputation in init: persisted absolute expiry minus current
time in milliseconds, with strictly negative remainders clamped to 1. -/
def recoverTtl (deleteTimestamp nowMs : Int) : Int :=
  let timeLeft := deleteTimestamp - nowMs
  if timeLeft < 0 then 1 else timeLeft

/-- The replay loop of init over the store files: an undecodable file aborts
init with the unmarshal error; otherwise the node is replayed through Set
(whose own error init ignores) with its recomputed TTL. -/
def initLoad : List (String × JValue) → KeyValueStore → FS → Int →
    KeyValueStore × FS × Option Err
  | [], st, fs, _ => (st, fs, none)
  | (_, content) :: rest, st, fs, nowNs =>
    match decodeNode content with
    | none => (st, fs, some .decodeErr)
    | some n =>
      let tl := recoverTtl n.DeleteTimestamp (unixMilli nowNs)
      let r := Set st fs n.Key n.Value tl nowNs
      initLoad rest r.1 r.2.1 nowNs

/-- The files init considers: entries of the cache folder whose name ends in
the store suffix. -/
def storeFiles (cacheFolder : String) (fs : FS) : List (String × JValue) :=
  fs.files.filter (fun p =>
    p.1.startsWith (cacheFolder ++ "/") && p.1.endsWith ".store.json")

/-- init: a no-op without a cache folder; otherwise replay every store file. -/
def init (st : KeyValueStore) (fs : FS) (nowNs : Int) : KeyValueStore × FS × Option Err :=
  if st.cacheFolder = "" then (st, fs, none)
  else initLoad (storeFiles st.cacheFolder fs) st fs nowNs

/-- NewKeyValueStore: fresh empty store, then init (the clean goroutine is
modelled by explicit sweep steps in the operation language below). -/
def NewKeyValueStore (cacheFolder : String) (fs : FS) (nowNs : Int) :
    KeyValueStore × FS × Option Err :=
  init { data := [], cacheFolder := cacheFolder } fs nowNs

end KVS

namespace MemKVS

/-- The entry record of the in-memory-only implementation (keyValueStore.go). -/
structure node where
  key : String
  value : GoVal
  deleteTimestamp : Int

/-- newNode of the in-memory-only implementation: no zero-TTL branch; the
deadline is now plus the 64-bit product ttl * time.Millisecond nanoseconds. -/
def newNode (key : String) (value : GoVal) (ttl : Int) (nowNs : Int) : node :=
  { key := key, value := value, deleteTimestamp := unixMilli (nowNs + wrap64 (ttl * 1000000)) }

/-- nodeIsExpired of the in-memory-only implementation. -/
def nodeIsExpired (n : node) (nowNs : Int) : Bool :=
  unixMilli nowNs > n.deleteTimestamp

/-- Set of the in-memory-only implementation (returns nothing). -/
def Set (data : List (String × node)) (key : String) (value : GoVal) (ttl : Int)
    (nowNs : Int) : List (String × node) :=
  ainsert data key (newNode key value ttl nowNs)

/-- Get of the in-memory-only implementation. -/
def Get (data : List (String × node)) (key : String) (nowNs : Int) : Option GoVal :=
  match alookup data key with
  | none => none
  | some n => if nodeIsExpired n nowNs then none else some n.value

/-- Delete of the in-memory-only implementation. -/
def Delete (data : List (String × node)) (key : String) : List (String × node) :=
  aerase data key

/-- Length of the in-memory-only implementation. -/
def Length (data : List (String × node)) (nowNs : Int) : Nat :=
  data.foldl (fun counter p => if nodeIsExpired p.2 nowNs then counter else counter + 1) 0

/-- The body of one sweep pass of the in-memory-only implementation. -/
def cleanLoop : List (String × node) → List (String × node) → Int → List (String × node)
  | [], data, _ => data
  | (k, n) :: rest, data, nowNs =>
    if nodeIsExpired n nowNs then cleanLoop rest (aerase data k) nowNs
    else cleanLoop rest data nowNs

/-- One pass of the clean goroutine of the in-memory-only implementation. -/
def clean (data : List (String × node)) (nowNs : Int) : List (String × node) :=
  cleanLoop data data nowNs

end MemKVS

/-- One store operation of a client session; sweep is one pass of the clean
goroutine, interleaved explicitly. -/
inductive Op where
  | set (key : String) (value : GoVal) (ttl : Int) (nowNs : Int) : Op
  | get (key : String) (nowNs : Int) : Op
  | del (key : String) : Op
  | length (nowNs : Int) : Op
  | sweep (nowNs : Int) : Op

/-- Whether the operation is a Set with nonzero TTL (vacuously true for the
other operations). -/
def Op.setTtlNonzero : Op → Bool
  | .set _ _ t _ => t != 0
  | _ => true

/-- Running state of a persistence-enabled store session: the store, the
file system, and whether any operation so far returned an error or the
sweep panicked. -/
structure KRun where
  store : KVS.KeyValueStore
  fs : KVS.FS
  errored : Bool

/-- One step of a persistence-enabled store session. -/
def stepOp (s : KRun) : Op → KRun
  | .set k v t now =>
    let r := KVS.Set s.store s.fs k v t now
    { store := r.1, fs := r.2.1, errored := s.errored || r.2.2.isSome }
  | .get _ _ => s
  | .length _ => s
  | .del k =>
    let r := KVS.Delete s.store s.fs k
    { store := r.1, fs := r.2.1, errored := s.errored || r.2.2.isSome }
  | .sweep now =>
    match KVS.clean s.store s.fs now with
    | .ok d f => { store := { s.store with data := d }, fs := f, errored := s.errored }
    | .crash d f _ => { store := { s.store with data := d }, fs := f, errored := true }

/-- A persistence-enabled store session. -/
def runOps (s : KRun) (ops : List Op) : KRun := ops.foldl stepOp s

/-- One step of an in-memory-only store session. -/
def stepOpM (data : List (String × MemKVS.node)) : Op → List (String × MemKVS.node)
  | .set k v t now => MemKVS.Set data k v t now
  | .get _ _ => data
  | .length _ => data
  | .del k => MemKVS.Delete data k
  | .sweep now => MemKVS.clean data now

/-- An in-memory-only store session. -/
def runOpsM (data : List (String × MemKVS.node)) (ops : List Op) :
    List (String × MemKVS.node) :=
  ops.foldl stepOpM data

/-- Forget the persistence view of a node (the two node records carry the
same three fields). -/
def KVS.node.toMem (n : KVS.node) : MemKVS.node :=
  { key := n.Key, value := n.Value, deleteTimestamp := n.DeleteTimestamp }

/-- Map a persistence-enabled data map to the corresponding in-memory one. -/
def convData (d : List (String × KVS.node)) : List (String × MemKVS.node) :=
  d.map (fun p => (p.1, p.2.toMem))

/-- The key-consistency invariant: every binding in the map stores a node
whose own Key field is the binding key. -/
def KeyInv (d : List (String × KVS.node)) : Prop :=
  ∀ k n, alookup d k = some n → n.Key = k

/-- A file system with no files and no failures. -/
def fsNoFail : KVS.FS :=
  { files := [], writeFails := fun _ => false, removeFails := fun _ => false }

/-- A file system on which every write fails. -/
def fsAllWriteFail : KVS.FS :=
  { files := [], writeFails := fun _ => true, removeFails := fun _ => false }

/-- A file system holding the mirror file of key a under folder c, on which
every remove fails with a non-not-exist error. -/
def fsRemoveFailA : KVS.FS :=
  { files := [(KVS.getFileName "c" "a", JValue.jNull)],
    writeFails := fun _ => false, removeFails := fun _ => true }

/-- A store with two entries, both already expired at instant 0. -/
def sweepCexStore : KVS.KeyValueStore :=
  { data := [("a", ⟨"a", GoVal.gStr "1", -1⟩), ("b", ⟨"b", GoVal.gStr "2", -1⟩)],
    cacheFolder := "c" }

/-! ### Association list and counting lemmas -/

theorem alookup_aerase_self {α : Type} (l : List (String × α)) (k : String) :
    alookup (aerase l k) k = none := by
  induction l with
  | nil => rfl
  | cons p rest ih =>
    by_cases h : p.1 = k
    · simpa [aerase, h] using ih
    · simpa [aerase, alookup, h] using ih

theorem alookup_aerase_ne {α : Type} (l : List (String × α)) (k k' : String)
    (h : k' ≠ k) : alookup (aerase l k) k' = alookup l k' := by
  induction l with
  | nil => rfl
  | cons p rest ih =>
    by_cases hp : p.1 = k
    · have hk : k ≠ k' := fun e => h e.symm
      simpa [aerase, List.filter_cons, alookup, hp, hk] using ih
    · by_cases hq : p.1 = k'
      · simp [aerase, List.filter_cons, alookup, hp, hq, h]
      · simpa [aerase, List.filter_cons, alookup, hp, hq] using ih

theorem alookup_ainsert_self {α : Type} (l : List (String × α)) (k : String) (v : α) :
    alookup (ainsert l k v) k = some v := by
  simp [ainsert, alookup]

theorem alookup_ainsert_ne {α : Type} (l : List (String × α)) (k k' : String) (v : α)
    (h : k' ≠ k) : alookup (ainsert l k v) k' = alookup l k' := by
  have : k ≠ k' := fun e => h e.symm
  simp [ainsert, alookup, this, alookup_aerase_ne l k k' h]

theorem aerase_aerase {α : Type} (l : List (String × α)) (k : String) :
    aerase (aerase l k) k = aerase l k := by
  simp [aerase, List.filter_filter]

theorem count_foldl {α : Type} (p : α → Bool) :
    ∀ (l : List α) (c : Nat),
      l.foldl (fun acc x => if p x then acc else acc + 1) c
        = c + (l.filter (fun x => !p x)).length := by
  intro l
  induction l with
  | nil => intro c; simp
  | cons x xs ih =>
    intro c
    by_cases h : p x
    · simp [List.foldl_cons, List.filter_cons, h, ih]
    · simp [List.foldl_cons, List.filter_cons, h, ih]
      omega

/-! ### Arithmetic facts about the deadline computation -/

theorem wrap64_maxint : wrap64 (goMaxInt * 1000000) = -1000000 := by decide

theorem wrap64_one_ms : wrap64 1000000 = 1000000 := by decide

theorem unixMilli_sub_one_ms (x : Int) : unixMilli (x + -1000000) = unixMilli x - 1 := by
  unfold unixMilli; omega

theorem unixMilli_add_one_ms (x : Int) : unixMilli (x + 1000000) = unixMilli x + 1 := by
  unfold unixMilli; omega

/-- The zero-TTL branch of newNode: math.MaxInt milliseconds overflows to
minus one millisecond, so the deadline lands one millisecond in the past. -/
theorem KVS.newNode_zero (key : String) (value : GoVal) (nowNs : Int) :
    KVS.newNode key value 0 nowNs = ⟨key, value, unixMilli nowNs - 1⟩ := by
  simp [KVS.newNode, wrap64_maxint, unixMilli_sub_one_ms]

theorem KVS.newNode_nonzero (key : String) (value : GoVal) (ttl nowNs : Int)
    (h : ttl ≠ 0) :
    KVS.newNode key value ttl nowNs
      = ⟨key, value, unixMilli (nowNs + wrap64 (ttl * 1000000))⟩ := by
  simp [KVS.newNode, h]

/-! ### Claim theorems -/

/-- C1: the claim says Set(k, v, 0) stores a never-expiring entry with the
maximum representable deadline.  The code instead overflows: math.MaxInt
milliseconds as a 64-bit nanosecond count is minus one millisecond, so the
stored deadline is one millisecond in the past, the entry is expired at its
own creation instant, and a Get immediately after the Set already misses. -/
theorem C1_zero_ttl_immediately_expired :
    ∀ (key : String) (value : GoVal) (nowNs : Int) (fs : KVS.FS),
      (KVS.newNode key value 0 nowNs).DeleteTimestamp = unixMilli nowNs - 1
      ∧ KVS.nodeIsExpired (KVS.newNode key value 0 nowNs) nowNs = true
      ∧ (KVS.Get (KVS.Set ⟨[], ""⟩ fs key value 0 nowNs).1 key nowNs).1 = none := by
  intro key value nowNs fs
  have hd := KVS.newNode_zero key value nowNs
  have hexp : KVS.nodeIsExpired (KVS.newNode key value 0 nowNs) nowNs = true := by
    rw [hd]; simp [KVS.nodeIsExpired]
  refine ⟨by rw [hd], hexp, ?_⟩
  simp only [KVS.Set, KVS.Get]
  rw [alookup_ainsert_self]
  simp [hexp]

/-- C3, counterexample: a recovered entry whose persisted expiry equals the
current time has remainder exactly zero; init passes 0 on to Set, so the
zero-TTL branch fires and the reinserted deadline is minus one millisecond,
not the plus-one-millisecond deadline a minimal positive TTL would give. -/
theorem C3_cex_zero_remainder_not_minimal_ttl :
    KVS.recoverTtl 0 (unixMilli 0) = 0
    ∧ (KVS.newNode "k" (GoVal.gStr "v") (KVS.recoverTtl 0 (unixMilli 0)) 0).DeleteTimestamp = -1
    ∧ ((-1 : Int) ≠ unixMilli 0 + 1) := by decide

/-- C3, amended: init recomputes the remaining TTL as persisted expiry minus
current time; a strictly negative remainder is clamped to one millisecond
(deadline now + 1 ms), but a remainder of exactly zero is passed through as
TTL 0 and takes the zero-TTL branch of newNode, yielding an already-expired
deadline of now - 1 ms. -/
theorem C3_replay_nonpositive_remainder :
    ∀ (key : String) (value : GoVal) (ts nowNs : Int),
      ts - unixMilli nowNs ≤ 0 →
      (KVS.newNode key value (KVS.recoverTtl ts (unixMilli nowNs)) nowNs).DeleteTimestamp
        = if ts - unixMilli nowNs < 0 then unixMilli nowNs + 1 else unixMilli nowNs - 1 := by
  intro key value ts nowNs h
  by_cases hneg : ts - unixMilli nowNs < 0
  · have hr : KVS.recoverTtl ts (unixMilli nowNs) = 1 := by simp [KVS.recoverTtl, hneg]
    rw [hr, KVS.newNode_nonzero key value 1 nowNs one_ne_zero]
    simp [hneg, wrap64_one_ms, unixMilli_add_one_ms]
  · have hz : ts - unixMilli nowNs = 0 := le_antisymm h (not_lt.mp hneg)
    have hr : KVS.recoverTtl ts (unixMilli nowNs) = 0 := by simp [KVS.recoverTtl, hneg, hz]
    rw [hr, KVS.newNode_zero]
    simp [hneg]

theorem C3_replay_witness :
    (KVS.newNode "k" (GoVal.gStr "v") (KVS.recoverTtl 0 (unixMilli 0)) 0).DeleteTimestamp
      = if (0 : Int) - unixMilli 0 < 0 then unixMilli 0 + 1 else unixMilli 0 - 1 :=
  C3_replay_nonpositive_remainder "k" (GoVal.gStr "v") 0 0 (by decide)

/-- C6: Length scans all entries and counts exactly the ones not expired at
call time, so an expired-but-not-yet-swept entry is never counted. -/
theorem C6_length_counts_unexpired :
    ∀ (st : KVS.KeyValueStore) (nowNs : Int),
      KVS.Length st nowNs
        = (st.data.filter (fun p => !KVS.nodeIsExpired p.2 nowNs)).length := by
  intro st nowNs
  simpa using count_foldl (fun p => KVS.nodeIsExpired p.2 nowNs) st.data 0

/-- C7: Get returns the stored value exactly when the key is present and not
expired at call time; in every case the store is returned unchanged, so an
expired-but-not-yet-swept entry is not evicted by Get. -/
theorem C7_get_hit_iff_live_and_no_side_effect :
    ∀ (st : KVS.KeyValueStore) (key : String) (nowNs : Int),
      (KVS.Get st key nowNs).2 = st
      ∧ (∀ v, (KVS.Get st key nowNs).1 = some v
          ↔ ∃ n, alookup st.data key = some n
              ∧ KVS.nodeIsExpired n nowNs = false ∧ n.Value = v) := by
  intro st key nowNs
  unfold KVS.Get
  rcases hl : alookup st.data key with _ | n
  · simp
  · by_cases hexp : KVS.nodeIsExpired n nowNs
    · simp [hexp]
    · simp only [Bool.not_eq_true] at hexp
      simp [hexp]


/-! ### Round-trip of the serialization format -/

mutual

theorem jEncode_decodeAny : ∀ j : JValue, jEncode (decodeAny j) = j
  | .jNull => rfl
  | .jBool _ => rfl
  | .jNum _ => rfl
  | .jStr _ => rfl
  | .jArr xs => by simp [decodeAny, jEncode, jEncode_decodeAnyList xs]
  | .jObj fields => by simp [decodeAny, jEncode, jEncode_decodeAnyFields fields]

theorem jEncode_decodeAnyList : ∀ xs : List JValue, jEncodeList (decodeAnyList xs) = xs
  | [] => rfl
  | x :: xs => by
    simp [decodeAnyList, jEncodeList, jEncode_decodeAny x, jEncode_decodeAnyList xs]

theorem jEncode_decodeAnyFields :
    ∀ fs : List (String × JValue), jEncodeFields (decodeAnyFields fs) = fs
  | [] => rfl
  | (s, x) :: rest => by
    simp [decodeAnyFields, jEncodeFields, jEncode_decodeAny x, jEncode_decodeAnyFields rest]

end

/-- C5, counterexample: a node whose payload is the Go int 1 does not come
back equal to itself: the JSON number decodes into the interface-typed
value field as a float64, a different Go value. -/
theorem C5_cex_int_payload_not_exact :
    KVS.decodeNode (KVS.encodeNode ⟨"k", GoVal.gInt 1, 5⟩) ≠ some ⟨"k", GoVal.gInt 1, 5⟩ := by
  intro h
  have h2 : some (KVS.node.mk "k" (GoVal.gFloat 1) 5)
      = some (KVS.node.mk "k" (GoVal.gInt 1) 5) := h
  injection h2 with h3
  injection h3 with hk hv ht
  exact GoVal.noConfusion hv

/-- C5, amended: decoding the encoded form of a node reproduces the key and
the absolute expiry instant exactly; the value is reproduced only up to its
JSON encoding (re-encoding the decoded value gives back the original JSON),
not as an identical Go value, since numbers and structured payloads decode
into the generic interface representation. -/
theorem C5_roundtrip_key_expiry_exact_value_structural :
    ∀ x : KVS.node,
      KVS.decodeNode (KVS.encodeNode x)
        = some ⟨x.Key, decodeAny (jEncode x.Value), x.DeleteTimestamp⟩
      ∧ jEncode (decodeAny (jEncode x.Value)) = jEncode x.Value :=
  fun x => ⟨rfl, jEncode_decodeAny (jEncode x.Value)⟩

/-! ### Set under a failing mirror write -/

/-- C4: when persistence is enabled and the mirror write fails, Set returns
the persistence error, yet the in-memory map already holds the new entry
(the memory write happens unconditionally, before persistence), and the
file system is left unchanged. -/
theorem C4_set_error_still_mutates :
    ∀ (st : KVS.KeyValueStore) (fs : KVS.FS) (key : String) (value : GoVal)
      (ttl nowNs : Int),
      st.cacheFolder ≠ "" →
      fs.writeFails (KVS.getFileName st.cacheFolder key) = true →
      (KVS.Set st fs key value ttl nowNs).2.2 = some KVS.Err.writeErr
      ∧ alookup (KVS.Set st fs key value ttl nowNs).1.data key
          = some (KVS.newNode key value ttl nowNs)
      ∧ (KVS.Set st fs key value ttl nowNs).2.1 = fs := by
  intro st fs key value ttl nowNs hf hw
  refine ⟨?_, ?_, ?_⟩
  · simp [KVS.Set, KVS.saveInCache, KVS.newNode, hf, hw]
  · simp [KVS.Set, alookup_ainsert_self]
  · simp [KVS.Set, KVS.saveInCache, KVS.newNode, hf, hw]

theorem C4_set_error_witness :
    (KVS.Set ⟨[], "c"⟩ fsAllWriteFail "k" (GoVal.gStr "v") 5 0).2.2 = some KVS.Err.writeErr
    ∧ alookup (KVS.Set ⟨[], "c"⟩ fsAllWriteFail "k" (GoVal.gStr "v") 5 0).1.data "k"
        = some (KVS.newNode "k" (GoVal.gStr "v") 5 0)
    ∧ (KVS.Set ⟨[], "c"⟩ fsAllWriteFail "k" (GoVal.gStr "v") 5 0).2.1 = fsAllWriteFail :=
  C4_set_error_still_mutates ⟨[], "c"⟩ fsAllWriteFail "k" (GoVal.gStr "v") 5 0
    (by decide) rfl

/-! ### Delete -/

/-- Removing the mirror file twice is the same as removing it once. -/
theorem KVS.deleteInCache_idem (cacheFolder : String) (fs : KVS.FS) (key : String) :
    KVS.deleteInCache cacheFolder (KVS.deleteInCache cacheFolder fs key).1 key
      = KVS.deleteInCache cacheFolder fs key := by
  by_cases h : cacheFolder = ""
  · simp [KVS.deleteInCache, h]
  · by_cases hf : KVS.hasFile fs (KVS.getFileName cacheFolder key)
    · by_cases hr : fs.removeFails (KVS.getFileName cacheFolder key)
      · simp [KVS.deleteInCache, h, hf, hr]
      · have hgone : KVS.hasFile
            { fs with files := aerase fs.files (KVS.getFileName cacheFolder key) }
            (KVS.getFileName cacheFolder key) = false := by
          simp [KVS.hasFile, alookup_aerase_self]
        simp [KVS.deleteInCache, h, hf, hr, hgone]
    · simp [KVS.deleteInCache, h, hf]

/-- C8: Delete removes the key from the map unconditionally; a missing
mirror file is success, not an error; the returned error does not depend on
the map contents at all (so an absent key is never itself an error); and
deleting twice equals deleting once, on the map, the file system and the
returned error. -/
theorem C8_delete_unconditional_idempotent :
    ∀ (st : KVS.KeyValueStore) (fs : KVS.FS) (key : String),
      alookup (KVS.Delete st fs key).1.data key = none
      ∧ (KVS.hasFile fs (KVS.getFileName st.cacheFolder key) = false →
          (KVS.Delete st fs key).2.2 = none)
      ∧ (KVS.Delete st fs key).2.2 = (KVS.Delete ⟨[], st.cacheFolder⟩ fs key).2.2
      ∧ KVS.Delete (KVS.Delete st fs key).1 (KVS.Delete st fs key).2.1 key
          = KVS.Delete st fs key := by
  intro st fs key
  refine ⟨?_, ?_, rfl, ?_⟩
  · simp [KVS.Delete, alookup_aerase_self]
  · intro habs
    by_cases h : st.cacheFolder = ""
    · simp [KVS.Delete, KVS.deleteInCache, h]
    · simp [KVS.Delete, KVS.deleteInCache, h, habs]
  · show (KVS.KeyValueStore.mk (aerase (aerase st.data key) key) st.cacheFolder,
        KVS.deleteInCache st.cacheFolder (KVS.deleteInCache st.cacheFolder fs key).1 key)
      = (KVS.KeyValueStore.mk (aerase st.data key) st.cacheFolder,
        KVS.deleteInCache st.cacheFolder fs key)
    rw [aerase_aerase, KVS.deleteInCache_idem]

theorem C8_delete_witness :
    alookup (KVS.Delete ⟨[("k", ⟨"k", GoVal.gStr "v", 5⟩)], "c"⟩ fsNoFail "k").1.data "k"
        = none
    ∧ (KVS.Delete ⟨[("k", ⟨"k", GoVal.gStr "v", 5⟩)], "c"⟩ fsNoFail "k").2.2 = none :=
  ⟨(C8_delete_unconditional_idempotent ⟨[("k", ⟨"k", GoVal.gStr "v", 5⟩)], "c"⟩ fsNoFail "k").1,
    (C8_delete_unconditional_idempotent ⟨[("k", ⟨"k", GoVal.gStr "v", 5⟩)], "c"⟩ fsNoFail "k").2.1
      rfl⟩

/-! ### The background sweep under a failing mirror removal -/

/-- C2, counterexample: with two expired entries and a mirror removal that
fails on the first one, the sweep pass panics (crashing the process) and the
second expired entry is left unswept, contradicting the claim that a mirror
deletion failure neither stops the sweep nor crashes the process. -/
theorem C2_cex_sweep_crashes_and_stops :
    (KVS.clean sweepCexStore fsRemoveFailA 0).isCrash = true
    ∧ alookup (KVS.clean sweepCexStore fsRemoveFailA 0).dataOf "b"
        = some ⟨"b", GoVal.gStr "2", -1⟩
    ∧ KVS.nodeIsExpired ⟨"b", GoVal.gStr "2", -1⟩ 0 = true :=
  ⟨rfl, rfl, rfl⟩

/-- C2, amended: when removing the mirror file of an expired entry fails
during a sweep pass, the pass panics with that error: the entry reached is
already deleted from the map, the remaining entries of the pass are not
swept, and the process crashes (the source calls panic on the error rather
than reporting it through a log or metric channel). -/
theorem C2_sweep_delete_failure_panics :
    ∀ (cacheFolder key : String) (n : KVS.node) (rest : List (String × KVS.node))
      (fs : KVS.FS) (nowNs : Int),
      cacheFolder ≠ "" →
      KVS.nodeIsExpired n nowNs = true →
      KVS.hasFile fs (KVS.getFileName cacheFolder key) = true →
      fs.removeFails (KVS.getFileName cacheFolder key) = true →
      KVS.clean ⟨(key, n) :: rest, cacheFolder⟩ fs nowNs
        = KVS.SweepResult.crash (aerase ((key, n) :: rest) key) fs KVS.Err.removeErr := by
  intro cacheFolder key n rest fs nowNs hcf hexp hhas hrf
  unfold KVS.clean KVS.cleanLoop KVS.deleteInCache
  simp [hcf, hexp, hhas, hrf]

theorem C2_sweep_witness :
    KVS.clean ⟨[("a", ⟨"a", GoVal.gStr "1", -1⟩)], "c"⟩ fsRemoveFailA 0
      = KVS.SweepResult.crash (aerase [("a", ⟨"a", GoVal.gStr "1", -1⟩)] "a")
          fsRemoveFailA KVS.Err.removeErr :=
  C2_sweep_delete_failure_panics "c" "a" ⟨"a", GoVal.gStr "1", -1⟩ [] fsRemoveFailA 0
    (by decide) rfl rfl rfl


/-! ### The key-consistency invariant (C10) -/

theorem alookup_ainsert_cases {α : Type} (l : List (String × α)) (k k' : String)
    (v w : α) (h : alookup (ainsert l k v) k' = some w) :
    (k' = k ∧ w = v) ∨ alookup l k' = some w := by
  by_cases hk : k' = k
  · left
    rw [hk, alookup_ainsert_self] at h
    exact ⟨hk, (Option.some.inj h).symm⟩
  · right
    rw [alookup_ainsert_ne l k k' v hk] at h
    exact h

theorem alookup_aerase_imp {α : Type} (l : List (String × α)) (k k' : String)
    (w : α) (h : alookup (aerase l k) k' = some w) : alookup l k' = some w := by
  by_cases hk : k' = k
  · rw [hk, alookup_aerase_self] at h
    cases h
  · rwa [alookup_aerase_ne l k k' hk] at h

theorem KeyInv_nil : KeyInv [] := by
  intro k n h
  simp [alookup] at h

theorem KeyInv_ainsert (d : List (String × KVS.node)) (k : String) (n : KVS.node)
    (hinv : KeyInv d) (hk : n.Key = k) : KeyInv (ainsert d k n) := by
  intro k' m hm
  rcases alookup_ainsert_cases d k k' n m hm with ⟨he, hv⟩ | hrest
  · rw [hv, he, hk]
  · exact hinv k' m hrest

theorem KeyInv_aerase (d : List (String × KVS.node)) (k : String)
    (hinv : KeyInv d) : KeyInv (aerase d k) :=
  fun k' m hm => hinv k' m (alookup_aerase_imp d k k' m hm)

/-- The Key field of a freshly built node is its key argument. -/
theorem KVS.newNode_Key (key : String) (value : GoVal) (ttl nowNs : Int) :
    (KVS.newNode key value ttl nowNs).Key = key := rfl

theorem KVS.Set_keyInv (st : KVS.KeyValueStore) (fs : KVS.FS) (key : String)
    (value : GoVal) (ttl nowNs : Int) (hinv : KeyInv st.data) :
    KeyInv (KVS.Set st fs key value ttl nowNs).1.data :=
  KeyInv_ainsert st.data key _ hinv (KVS.newNode_Key key value ttl nowNs)

theorem KVS.cleanLoop_keyInv (cacheFolder : String) :
    ∀ (snap data : List (String × KVS.node)) (fs : KVS.FS) (nowNs : Int),
      KeyInv data → KeyInv (KVS.cleanLoop cacheFolder snap data fs nowNs).dataOf := by
  intro snap
  induction snap with
  | nil =>
    intro data fs nowNs h
    simpa [KVS.cleanLoop, KVS.SweepResult.dataOf] using h
  | cons p rest ih =>
    intro data fs nowNs h
    obtain ⟨k, n⟩ := p
    by_cases hexp : KVS.nodeIsExpired n nowNs
    · rcases hdel : KVS.deleteInCache cacheFolder fs k with ⟨fs2, e2⟩
      cases e2 with
      | none =>
        simp only [KVS.cleanLoop, hexp, if_true, hdel]
        exact ih (aerase data k) fs2 nowNs (KeyInv_aerase data k h)
      | some e =>
        simp only [KVS.cleanLoop, hexp, if_true, hdel, KVS.SweepResult.dataOf]
        exact KeyInv_aerase data k h
    · simp only [KVS.cleanLoop, hexp]
      simpa using ih data fs nowNs h

theorem KVS.initLoad_keyInv :
    ∀ (files : List (String × JValue)) (st : KVS.KeyValueStore) (fs : KVS.FS)
      (nowNs : Int), KeyInv st.data → KeyInv (KVS.initLoad files st fs nowNs).1.data := by
  intro files
  induction files with
  | nil => intro st fs nowNs h; simpa [KVS.initLoad] using h
  | cons p rest ih =>
    intro st fs nowNs h
    obtain ⟨name, content⟩ := p
    rcases hdec : KVS.decodeNode content with _ | n
    · simpa [KVS.initLoad, hdec] using h
    · simp only [KVS.initLoad, hdec]
      exact ih _ _ _ (KVS.Set_keyInv st fs n.Key n.Value _ nowNs h)

theorem stepOp_keyInv (s : KRun) (op : Op) (h : KeyInv s.store.data) :
    KeyInv (stepOp s op).store.data := by
  cases op with
  | set k v t now => exact KVS.Set_keyInv s.store s.fs k v t now h
  | get k now => exact h
  | length now => exact h
  | del k => exact KeyInv_aerase s.store.data k h
  | sweep now =>
    have hc : KeyInv (KVS.clean s.store s.fs now).dataOf :=
      KVS.cleanLoop_keyInv s.store.cacheFolder s.store.data s.store.data s.fs now h
    rcases hres : KVS.clean s.store s.fs now with ⟨d, f⟩ | ⟨d, f, e⟩
    · rw [hres] at hc
      simpa [stepOp, hres, KVS.SweepResult.dataOf] using hc
    · rw [hres] at hc
      simpa [stepOp, hres, KVS.SweepResult.dataOf] using hc

theorem runOps_keyInv : ∀ (ops : List Op) (s : KRun),
    KeyInv s.store.data → KeyInv (runOps s ops).store.data := by
  intro ops
  induction ops with
  | nil => intro s h; simpa [runOps] using h
  | cons op rest ih =>
    intro s h
    have : runOps s (op :: rest) = runOps (stepOp s op) rest := by
      simp [runOps]
    rw [this]
    exact ih (stepOp s op) (stepOp_keyInv s op h)

/-- C10: the key-consistency invariant holds after construction (including
the startup replay of mirror files) and after any sequence of operations:
every binding in the map stores a node whose own Key field equals the
binding key; Set stores a node built from its key argument under that key,
and init reinserts each recovered node under its persisted key field. -/
theorem C10_key_field_matches_binding :
    ∀ (cacheFolder : String) (fs0 : KVS.FS) (now0 : Int) (ops : List Op),
      KeyInv (runOps
        { store := (KVS.NewKeyValueStore cacheFolder fs0 now0).1,
          fs := (KVS.NewKeyValueStore cacheFolder fs0 now0).2.1,
          errored := false } ops).store.data := by
  intro cacheFolder fs0 now0 ops
  apply runOps_keyInv
  show KeyInv (KVS.NewKeyValueStore cacheFolder fs0 now0).1.data
  unfold KVS.NewKeyValueStore KVS.init
  by_cases h : cacheFolder = ""
  · simpa [h] using KeyInv_nil
  · simp only [h, if_false]
    exact KVS.initLoad_keyInv _ _ _ _ KeyInv_nil


/-! ### Refinement: empty cache folder versus the in-memory-only store (C9) -/

theorem convData_aerase (d : List (String × KVS.node)) (k : String) :
    convData (aerase d k) = aerase (convData d) k := by
  induction d with
  | nil => rfl
  | cons p rest ih =>
    by_cases hp : p.1 = k
    · simp [convData, aerase, List.filter_cons, hp] at ih ⊢
      exact ih
    · simp [convData, aerase, List.filter_cons, hp] at ih ⊢
      exact ih

theorem convData_ainsert (d : List (String × KVS.node)) (k : String) (n : KVS.node) :
    convData (ainsert d k n) = ainsert (convData d) k n.toMem := by
  show (k, n.toMem) :: convData (aerase d k) = (k, n.toMem) :: aerase (convData d) k
  rw [convData_aerase]

theorem alookup_convData (d : List (String × KVS.node)) (k : String) :
    alookup (convData d) k = (alookup d k).map KVS.node.toMem := by
  induction d with
  | nil => rfl
  | cons p rest ih =>
    by_cases hp : p.1 = k
    · simp [convData, alookup, hp]
    · simpa [convData, alookup, hp] using ih

/-- With a nonzero TTL both implementations build the same node. -/
theorem toMem_newNode (key : String) (value : GoVal) (ttl nowNs : Int) (h : ttl ≠ 0) :
    (KVS.newNode key value ttl nowNs).toMem = MemKVS.newNode key value ttl nowNs := by
  simp [KVS.node.toMem, KVS.newNode, MemKVS.newNode, h]

theorem nodeIsExpired_toMem (n : KVS.node) (nowNs : Int) :
    MemKVS.nodeIsExpired n.toMem nowNs = KVS.nodeIsExpired n nowNs := rfl

/-- With no cache folder a sweep pass never panics, leaves the file system
alone, and evicts exactly the entries the in-memory-only pass evicts. -/
theorem cleanLoop_empty_folder :
    ∀ (snap data : List (String × KVS.node)) (fs : KVS.FS) (nowNs : Int),
      ∃ d, KVS.cleanLoop "" snap data fs nowNs = KVS.SweepResult.ok d fs
        ∧ convData d = MemKVS.cleanLoop (convData snap) (convData data) nowNs := by
  intro snap
  induction snap with
  | nil =>
    intro data fs nowNs
    exact ⟨data, rfl, rfl⟩
  | cons p rest ih =>
    intro data fs nowNs
    obtain ⟨k, n⟩ := p
    have hcons : convData ((k, n) :: rest) = (k, n.toMem) :: convData rest := rfl
    by_cases hexp : KVS.nodeIsExpired n nowNs
    · obtain ⟨d, h1, h2⟩ := ih (aerase data k) fs nowNs
      refine ⟨d, ?_, ?_⟩
      · simpa [KVS.cleanLoop, hexp, KVS.deleteInCache] using h1
      · rw [h2, convData_aerase, hcons]
        simp only [MemKVS.cleanLoop, nodeIsExpired_toMem, hexp, if_true]
    · obtain ⟨d, h1, h2⟩ := ih data fs nowNs
      refine ⟨d, ?_, ?_⟩
      · simpa [KVS.cleanLoop, hexp] using h1
      · rw [h2, hcons]
        have hx : KVS.nodeIsExpired n nowNs = false := by simpa using hexp
        simp only [MemKVS.cleanLoop, nodeIsExpired_toMem, hx]
        rfl

/-- One step with no cache folder: the file system is untouched, no error is
recorded, and the map corresponds to the in-memory-only step. -/
theorem stepOp_empty_folder (op : Op) (d : List (String × KVS.node)) (fs : KVS.FS)
    (hop : Op.setTtlNonzero op = true) :
    ∃ d2, stepOp ⟨⟨d, ""⟩, fs, false⟩ op = ⟨⟨d2, ""⟩, fs, false⟩
      ∧ convData d2 = stepOpM (convData d) op := by
  cases op with
  | set k v t now =>
    have ht : t ≠ 0 := by simpa [Op.setTtlNonzero] using hop
    refine ⟨ainsert d k (KVS.newNode k v t now), ?_, ?_⟩
    · simp [stepOp, KVS.Set, KVS.saveInCache]
    · rw [convData_ainsert, toMem_newNode k v t now ht]
      simp [stepOpM, MemKVS.Set]
  | get k now => exact ⟨d, rfl, rfl⟩
  | length now => exact ⟨d, rfl, rfl⟩
  | del k =>
    refine ⟨aerase d k, ?_, ?_⟩
    · simp [stepOp, KVS.Delete, KVS.deleteInCache]
    · simp [stepOpM, MemKVS.Delete, convData_aerase]
  | sweep now =>
    obtain ⟨d2, h1, h2⟩ := cleanLoop_empty_folder d d fs now
    refine ⟨d2, ?_, ?_⟩
    · have hc : KVS.clean ⟨d, ""⟩ fs now = KVS.SweepResult.ok d2 fs := h1
      simp [stepOp, hc]
    · rw [h2]
      simp [stepOpM, MemKVS.clean]

/-- A whole session with no cache folder refines the in-memory-only store. -/
theorem runOps_empty_folder :
    ∀ (ops : List Op) (d : List (String × KVS.node)) (fs : KVS.FS),
      ops.all Op.setTtlNonzero = true →
      ∃ d2, runOps ⟨⟨d, ""⟩, fs, false⟩ ops = ⟨⟨d2, ""⟩, fs, false⟩
        ∧ convData d2 = runOpsM (convData d) ops := by
  intro ops
  induction ops with
  | nil =>
    intro d fs _
    exact ⟨d, rfl, rfl⟩
  | cons op rest ih =>
    intro d fs hall
    rw [List.all_cons, Bool.and_eq_true] at hall
    obtain ⟨d1, hs1, hc1⟩ := stepOp_empty_folder op d fs hall.1
    obtain ⟨d2, hs2, hc2⟩ := ih d1 fs hall.2
    refine ⟨d2, ?_, ?_⟩
    · show runOps (stepOp ⟨⟨d, ""⟩, fs, false⟩ op) rest = _
      rw [hs1]
      exact hs2
    · rw [hc2, hc1]
      rfl

/-- Get depends only on the data map, identically in both implementations. -/
theorem Get_conv (d : List (String × KVS.node)) (cacheFolder key : String) (nowNs : Int) :
    (KVS.Get ⟨d, cacheFolder⟩ key nowNs).1 = MemKVS.Get (convData d) key nowNs := by
  unfold KVS.Get MemKVS.Get
  rw [alookup_convData]
  rcases alookup d key with _ | n
  · rfl
  · simp only [Option.map_some]
    change (if KVS.nodeIsExpired n nowNs = true
          then ((none : Option GoVal), (⟨d, cacheFolder⟩ : KVS.KeyValueStore))
          else (some n.Value, ⟨d, cacheFolder⟩)).1
        = if KVS.nodeIsExpired n nowNs = true then none else some n.Value
    by_cases hexp : KVS.nodeIsExpired n nowNs = true <;> simp [hexp]

/-- Length depends only on the data map, identically in both implementations. -/
theorem Length_conv (d : List (String × KVS.node)) (cacheFolder : String) (nowNs : Int) :
    KVS.Length ⟨d, cacheFolder⟩ nowNs = MemKVS.Length (convData d) nowNs := by
  unfold KVS.Length MemKVS.Length convData
  rw [List.foldl_map]
  rfl

/-- C9, counterexample: with TTL 0 the two implementations differ at the very
first Get: the persistence-enabled store (even with no cache folder) takes
the zero-TTL sentinel branch, whose overflowed deadline is already past, so
the Get misses, while the in-memory-only implementation stores deadline now
+ 0 ms, which is not yet strictly past, so its Get still hits. -/
theorem C9_cex_zero_ttl_diverges :
    (KVS.Get (KVS.Set ⟨[], ""⟩ fsNoFail "k" (GoVal.gStr "v") 0 0).1 "k" 0).1 = none
    ∧ MemKVS.Get (MemKVS.Set [] "k" (GoVal.gStr "v") 0 0) "k" 0 = some (GoVal.gStr "v") :=
  ⟨rfl, rfl⟩

/-- C9, amended: a store configured without a storage location keeps every
persistence-layer operation a no-op (mirror write, mirror delete, startup
load), and over every sequence of operations in which no Set uses TTL 0 it
produces the same results as the in-memory-only implementation: no call
errors, the file system is untouched, and Get and Length agree throughout
(with TTL 0 the two implementations diverge, see the counterexample). -/
theorem C9_empty_folder_refines_memory_store :
    ∀ (fs0 : KVS.FS) (ops : List Op),
      ops.all Op.setTtlNonzero = true →
      (∀ fs n, KVS.saveInCache "" fs n = (fs, none))
      ∧ (∀ fs k, KVS.deleteInCache "" fs k = (fs, none))
      ∧ (∀ fs now, KVS.NewKeyValueStore "" fs now = (⟨[], ""⟩, fs, none))
      ∧ (runOps ⟨⟨[], ""⟩, fs0, false⟩ ops).fs = fs0
      ∧ (runOps ⟨⟨[], ""⟩, fs0, false⟩ ops).errored = false
      ∧ (∀ key now, (KVS.Get (runOps ⟨⟨[], ""⟩, fs0, false⟩ ops).store key now).1
          = MemKVS.Get (runOpsM [] ops) key now)
      ∧ (∀ now, KVS.Length (runOps ⟨⟨[], ""⟩, fs0, false⟩ ops).store now
          = MemKVS.Length (runOpsM [] ops) now) := by
  intro fs0 ops hall
  obtain ⟨d2, hrun, hconv⟩ := runOps_empty_folder ops [] fs0 hall
  have hmem : runOpsM [] ops = convData d2 := by
    rw [hconv]
    rfl
  refine ⟨fun fs n => rfl, fun fs k => rfl, fun fs now => rfl, ?_, ?_, ?_, ?_⟩
  · rw [hrun]
  · rw [hrun]
  · intro key now
    rw [hrun, hmem]
    exact Get_conv d2 "" key now
  · intro now
    rw [hrun, hmem]
    exact Length_conv d2 "" now

theorem C9_refinement_witness :
    (runOps ⟨⟨[], ""⟩, fsNoFail, false⟩ [Op.set "a" (GoVal.gStr "x") 5 0]).errored = false
    ∧ (∀ now, KVS.Length (runOps ⟨⟨[], ""⟩, fsNoFail, false⟩
          [Op.set "a" (GoVal.gStr "x") 5 0]).store now
        = MemKVS.Length (runOpsM [] [Op.set "a" (GoVal.gStr "x") 5 0]) now) :=
  ⟨(C9_empty_folder_refines_memory_store fsNoFail [Op.set "a" (GoVal.gStr "x") 5 0]
      (by decide)).2.2.2.2.1,
    (C9_empty_folder_refines_memory_store fsNoFail [Op.set "a" (GoVal.gStr "x") 5 0]
      (by decide)).2.2.2.2.2.2⟩
